import Mathlib

/-!
Verification of the metal-token-rotate controller core.

This file gives a shallow embedding, in Lean, of the reconciliation core of
the metal-token-rotate Kubernetes controller (secret controller, config
loader, autoprovision value parsing, token-freshness evaluation, token
issuance and the merge patch), and proves or refutes the specified
properties about it.

Modelling conventions:
* Go `(value, error)` returns are modelled with `Except String`; a Go panic
  (which is not an error value) is a separate `GoRes.panics` outcome that
  propagates through callers.
* Kubernetes clients are modelled as bundles of effect functions (the
  outcome of each remote call); an `Env` records the outcome of every
  external interaction one `Reconcile` invocation can perform.
* Go `map[string]string` / `map[string][]byte` values are modelled as
  association lists with first-match lookup and replace-or-append update.
* Time instants are unbounded integers in nanoseconds (`time.Unix(sec, 0)`
  is `sec * 1000000000`; a `time.Time` holds any `int64` Unix second).
  `time.Time.Sub` returns a `time.Duration` (`int64` nanoseconds) and
  saturates at ±2^63 ns (about ±292 years) when the difference is not
  representable; this is modelled by `goTimeSub`.  `Duration` division by
  2 is Go's truncated `int64` division, written `Int.tdiv`.
-/

/-- Outcome of running a piece of Go code: a normal return or a panic. -/
inductive GoRes (α : Type) where
  | ok (a : α)
  | panics (msg : String)
deriving DecidableEq

/-- Outcome of a `client.Get` call, as seen by the error path: NotFound is
distinguished from other failures (for `client.IgnoreNotFound`). -/
inductive GetErr where
  | notFound
  | other (e : String)
deriving DecidableEq

/-- `client.IgnoreNotFound`: drop NotFound errors, keep the rest. -/
def ignoreNotFound : GetErr → Option String
  | .notFound => none
  | .other e => some e

/-- Association-list lookup, modelling Go map indexing `m[k]`. -/
def lookupKV (m : List (String × String)) (k : String) : Option String :=
  (m.find? (fun p => p.1 = k)).map (·.2)

/-- Association-list update, modelling Go map assignment `m[k] = v`. -/
def setKV (m : List (String × String)) (k v : String) : List (String × String) :=
  match m with
  | [] => [(k, v)]
  | (k', v') :: rest => if k' = k then (k, v) :: rest else (k', v') :: setKV rest k v

theorem lookupKV_setKV_same (m : List (String × String)) (k v : String) :
    lookupKV (setKV m k v) k = some v := by
  induction m with
  | nil => simp [setKV, lookupKV]
  | cons p rest ih =>
    obtain ⟨k', v'⟩ := p
    by_cases h : k' = k
    · simp [setKV, h, lookupKV]
    · simpa [setKV, h, lookupKV] using ih

theorem lookupKV_setKV_other (m : List (String × String)) (k v k' : String)
    (h : k' ≠ k) : lookupKV (setKV m k v) k' = lookupKV m k' := by
  induction m with
  | nil =>
    have hks : ¬ k = k' := fun hh => h hh.symm
    simp [setKV, lookupKV, hks]
  | cons p rest ih =>
    obtain ⟨k₀, v₀⟩ := p
    by_cases h₀ : k₀ = k
    · subst h₀
      have hks : ¬ k₀ = k' := fun hh => h hh.symm
      simp [setKV, lookupKV, hks, List.find?_cons]
    · by_cases h₁ : k₀ = k'
      · subst h₁
        simp [setKV, h₀, lookupKV]
      · simpa [setKV, h₀, lookupKV, h₁] using ih

/-- Go `strings.Split(s, sep)` for a one-character separator, on the
character list of the string.  Always returns at least one segment. -/
def splitChar (sep : Char) : List Char → List (List Char)
  | [] => [[]]
  | c :: rest =>
    if c = sep then [] :: splitChar sep rest
    else
      match splitChar sep rest with
      | [] => [[c]]
      | p :: ps => (c :: p) :: ps

/-- Inverse of `splitChar`: interleave the separator between the segments. -/
def joinSep (sep : Char) : List (List Char) → List Char
  | [] => []
  | [p] => p
  | p :: q :: ps => p ++ sep :: joinSep sep (q :: ps)

theorem splitChar_ne_nil (sep : Char) (cs : List Char) : splitChar sep cs ≠ [] := by
  cases cs with
  | nil => simp [splitChar]
  | cons c rest =>
    by_cases h : c = sep
    · simp [splitChar, h]
    · simp only [splitChar, h, if_false]
      cases splitChar sep rest <;> simp

theorem splitChar_of_not_mem (sep : Char) (cs : List Char) (h : sep ∉ cs) :
    splitChar sep cs = [cs] := by
  induction cs with
  | nil => simp [splitChar]
  | cons c rest ih =>
    have hc : ¬ c = sep := fun hh => h (hh ▸ List.mem_cons_self c rest)
    have hrest : sep ∉ rest := fun hh => h (List.mem_cons_of_mem c hh)
    simp [splitChar, hc, ih hrest]

theorem splitChar_append (sep : Char) (a b : List Char) (h : sep ∉ a) :
    splitChar sep (a ++ sep :: b) = a :: splitChar sep b := by
  induction a with
  | nil => simp [splitChar]
  | cons x xs ih =>
    have hx : ¬ x = sep := fun hh => h (hh ▸ List.mem_cons_self x xs)
    have hxs : sep ∉ xs := fun hh => h (List.mem_cons_of_mem x hh)
    simp only [List.cons_append, splitChar, hx, if_false, List.append_eq, ih hxs]

/-- Full characterization of `splitChar`. -/
theorem splitChar_eq_iff (sep : Char) (cs : List Char) (parts : List (List Char)) :
    splitChar sep cs = parts ↔
      parts ≠ [] ∧ cs = joinSep sep parts ∧ ∀ p ∈ parts, sep ∉ p := by
  constructor
  · intro h
    induction cs generalizing parts with
    | nil =>
      simp [splitChar] at h
      subst h
      simp [joinSep]
    | cons c rest ih =>
      by_cases hc : c = sep
      · subst hc
        simp only [splitChar, if_pos rfl] at h
        cases hsp : splitChar c rest with
        | nil => exact absurd hsp (splitChar_ne_nil c rest)
        | cons p ps =>
          rw [hsp] at h
          obtain ⟨-, hjoin, hmem⟩ := ih (p :: ps) hsp
          subst h
          refine ⟨by simp, by simp [joinSep, hjoin], ?_⟩
          intro q hq
          rcases List.mem_cons.mp hq with hq | hq
          · subst hq; simp
          · exact hmem q hq
      · simp only [splitChar, hc, if_false] at h
        cases hsp : splitChar sep rest with
        | nil => exact absurd hsp (splitChar_ne_nil sep rest)
        | cons p ps =>
          rw [hsp] at h
          obtain ⟨-, hjoin, hmem⟩ := ih (p :: ps) hsp
          subst h
          refine ⟨by simp, ?_, ?_⟩
          · cases ps with
            | nil => simp [joinSep] at hjoin ⊢; exact hjoin
            | cons q qs => simp [joinSep] at hjoin ⊢; exact hjoin
          · intro q hq
            rcases List.mem_cons.mp hq with hq | hq
            · subst hq
              intro hmm
              rcases List.mem_cons.mp hmm with hmm | hmm
              · exact hc hmm.symm
              · exact hmem p (List.mem_cons_self p ps) hmm
            · exact hmem q (List.mem_cons_of_mem p hq)
  · rintro ⟨hne, hjoin, hmem⟩
    subst hjoin
    induction parts with
    | nil => exact absurd rfl hne
    | cons p ps ih =>
      cases ps with
      | nil =>
        simpa [joinSep] using splitChar_of_not_mem sep p (hmem p (by simp))
      | cons q qs =>
        have hp : sep ∉ p := hmem p (by simp)
        have : splitChar sep (joinSep sep (q :: qs)) = q :: qs :=
          ih (by simp) (fun r hr => hmem r (List.mem_cons_of_mem p hr))
        simp only [joinSep, splitChar_append sep p _ hp, this]

/-- The two-segment case of `splitChar_eq_iff`. -/
theorem splitChar_eq_pair_iff (sep : Char) (cs a b : List Char) :
    splitChar sep cs = [a, b] ↔ cs = a ++ sep :: b ∧ sep ∉ a ∧ sep ∉ b := by
  rw [splitChar_eq_iff]
  constructor
  · rintro ⟨-, hjoin, hmem⟩
    exact ⟨by simpa [joinSep] using hjoin, hmem a (by simp), hmem b (by simp)⟩
  · rintro ⟨hcs, ha, hb⟩
    refine ⟨by simp, by simpa [joinSep] using hcs, ?_⟩
    intro p hp
    rcases List.mem_cons.mp hp with hp | hp
    · exact hp ▸ ha
    · rcases List.mem_cons.mp hp with hp | hp
      · exact hp ▸ hb
      · simp at hp

/-! ## Data model (source: `controllers/config.go`, `secret_controller.go`) -/

/-- `ClusterConfig` from `controllers/config.go` (multi-cluster variant).
Go `int64` is modelled as `Int`. -/
structure ClusterConfig where
  serviceAccountName : String
  serviceAccountNamespace : String
  expirationSeconds : Int
  identity : String
  targetSecretName : String
  targetSecretNamespace : String
deriving DecidableEq

/-- The Go zero value of `ClusterConfig`. -/
def zeroClusterConfig : ClusterConfig :=
  { serviceAccountName := ""
    serviceAccountNamespace := ""
    expirationSeconds := 0
    identity := ""
    targetSecretName := ""
    targetSecretNamespace := "" }

/-- `Config` from `controllers/config.go`: the `items` list. -/
structure Config where
  clusters : List ClusterConfig
deriving DecidableEq

/-- The part of a `corev1.Secret` this controller reads or writes.
Data values (Go `[]byte`) are modelled as strings. -/
structure Secret where
  name : String
  nspace : String
  annotations : List (String × String)
  labels : List (String × String)
  data : List (String × String)
deriving DecidableEq

/-- The `target` struct parsed from the autoprovision value:
identity and target namespace. -/
structure Target where
  identity : String
  nspace : String
deriving DecidableEq

/-- Key of the autoprovision trigger (`AutoprovisonAnnotationKey` in the
source, typo included). -/
def AutoprovisonKey : String := "metal.ironcore.dev/autoprovision"

/-- `parseAutoprovisionValue` from the secret controller:
split on `/` and require exactly two segments (no emptiness check). -/
def parseAutoprovisionValue (value : String) : Except String Target :=
  match splitChar '/' value.data with
  | [a, b] => .ok { identity := ⟨a⟩, nspace := ⟨b⟩ }
  | _ => .error ("invalid autoprovision annotation value: " ++ value)

/-! ## Go `encoding/base64` RawURLEncoding decoding

`base64.RawURLEncoding.DecodeString`: URL-safe alphabet, no padding.
Go's decoder first ignores `\r` and `\n`, then consumes 4-character
quanta (3 bytes each); a leftover of 2 or 3 characters contributes 1 or
2 bytes; a leftover of exactly 1 character, or any character outside the
alphabet, is a `CorruptInputError`.  Non-zero trailing bits are accepted
(the default decoder is not strict). -/

/-- Value of one character of the URL-safe base64 alphabet. -/
def b64UrlVal (c : Char) : Option Nat :=
  if 'A' ≤ c ∧ c ≤ 'Z' then some (c.toNat - 65)
  else if 'a' ≤ c ∧ c ≤ 'z' then some (c.toNat - 97 + 26)
  else if '0' ≤ c ∧ c ≤ '9' then some (c.toNat - 48 + 52)
  else if c = '-' then some 62
  else if c = '_' then some 63
  else none

/-- Decode base64 quanta (bytes as `Nat < 256`). -/
def b64DecodeQuanta : List Char → Except String (List Nat)
  | [] => .ok []
  | [_] => .error "illegal base64 data"
  | [c1, c2] =>
    match b64UrlVal c1, b64UrlVal c2 with
    | some v1, some v2 => .ok [v1 * 4 + v2 / 16]
    | _, _ => .error "illegal base64 data"
  | [c1, c2, c3] =>
    match b64UrlVal c1, b64UrlVal c2, b64UrlVal c3 with
    | some v1, some v2, some v3 => .ok [v1 * 4 + v2 / 16, v2 % 16 * 16 + v3 / 4]
    | _, _, _ => .error "illegal base64 data"
  | c1 :: c2 :: c3 :: c4 :: rest =>
    match b64UrlVal c1, b64UrlVal c2, b64UrlVal c3, b64UrlVal c4 with
    | some v1, some v2, some v3, some v4 =>
      match b64DecodeQuanta rest with
      | .ok tail => .ok ((v1 * 4 + v2 / 16) :: (v2 % 16 * 16 + v3 / 4) :: (v3 % 4 * 64 + v4) :: tail)
      | .error e => .error e
    | _, _, _, _ => .error "illegal base64 data"

/-- `base64.RawURLEncoding.DecodeString` on a string. -/
def b64RawUrlDecode (s : String) : Except String (List Nat) :=
  b64DecodeQuanta (s.data.filter (fun c => ¬ (c = '\r' ∨ c = '\n')))

/-! ## Go `encoding/json` (the fragment used by `jwtClaims` and `Config`)

A JSON value parser over byte lists, modelling `json.Unmarshal` of the
token payload into `jwtClaims{Exp, Iat int64}`.  Simplifications (noted,
not exercised by any claim): escape sequences inside strings are kept
raw rather than decoded, and struct-field matching is exact-case only. -/

/-- Parsed JSON value; numbers keep their literal bytes (Go decodes a
number field with `strconv.ParseInt` on the literal). -/
inductive JVal where
  | jnull
  | jbool (b : Bool)
  | jstr (s : List Nat)
  | jnum (lit : List Nat)
  | jarr (xs : List JVal)
  | jobj (fields : List (List Nat × JVal))

/-- JSON whitespace bytes: space, tab, LF, CR. -/
def jsonWs (b : Nat) : Bool := b = 32 ∨ b = 9 ∨ b = 10 ∨ b = 13

def skipWs : List Nat → List Nat
  | [] => []
  | b :: rest => if jsonWs b then skipWs rest else b :: rest

/-- String body after the opening quote; returns contents and remainder. -/
def parseStrBody : List Nat → Option (List Nat × List Nat)
  | [] => none
  | b :: rest =>
    if b = 34 then some ([], rest)
    else if b = 92 then
      match rest with
      | [] => none
      | e :: rest2 =>
        match parseStrBody rest2 with
        | some (s, r) => some (b :: e :: s, r)
        | none => none
    else if b < 32 then none
    else
      match parseStrBody rest with
      | some (s, r) => some (b :: s, r)
      | none => none

/-- Take leading ASCII digits. -/
def takeDigits : List Nat → List Nat × List Nat
  | [] => ([], [])
  | b :: rest =>
    if 48 ≤ b ∧ b ≤ 57 then
      let (d, r) := takeDigits rest
      (b :: d, r)
    else ([], b :: rest)

/-- Optional fraction part of a JSON number. -/
def parseFracPart (acc : List Nat) (bs : List Nat) : Option (List Nat × List Nat) :=
  match bs with
  | 46 :: rest =>
    let (ds, r) := takeDigits rest
    if ds = [] then none else some (acc ++ 46 :: ds, r)
  | _ => some (acc, bs)

/-- Optional exponent part of a JSON number. -/
def parseExpPart (acc : List Nat) (bs : List Nat) : Option (List Nat × List Nat) :=
  match bs with
  | b :: rest =>
    if b = 101 ∨ b = 69 then
      let (sgn, rest2) :=
        match rest with
        | 43 :: r => ([43], r)
        | 45 :: r => ([45], r)
        | _ => ([], rest)
      let (ds, r) := takeDigits rest2
      if ds = [] then none else some (acc ++ b :: sgn ++ ds, r)
    else some (acc, bs)
  | [] => some (acc, [])

/-- JSON number literal (grammar: `-? int frac? exp?`). -/
def parseNumLit (bs : List Nat) : Option (List Nat × List Nat) :=
  let (sign, bs1) :=
    match bs with
    | 45 :: rest => ([45], rest)
    | _ => ([], bs)
  match bs1 with
  | [] => none
  | d :: rest =>
    if d = 48 then
      match parseFracPart (sign ++ [48]) rest with
      | some (acc, r) => parseExpPart acc r
      | none => none
    else if 49 ≤ d ∧ d ≤ 57 then
      let (ds, r) := takeDigits rest
      match parseFracPart (sign ++ d :: ds) r with
      | some (acc, r2) => parseExpPart acc r2
      | none => none
    else none

mutual

/-- Fuel-indexed JSON value parser. -/
def parseJVal : Nat → List Nat → Option (JVal × List Nat)
  | 0, _ => none
  | fuel + 1, bs =>
    match skipWs bs with
    | [] => none
    | b :: rest =>
      if b = 34 then (parseStrBody rest).map (fun p => (JVal.jstr p.1, p.2))
      else if b = 110 then
        match rest with
        | 117 :: 108 :: 108 :: r => some (.jnull, r)
        | _ => none
      else if b = 116 then
        match rest with
        | 114 :: 117 :: 101 :: r => some (.jbool true, r)
        | _ => none
      else if b = 102 then
        match rest with
        | 97 :: 108 :: 115 :: 101 :: r => some (.jbool false, r)
        | _ => none
      else if b = 91 then
        match skipWs rest with
        | 93 :: r => some (.jarr [], r)
        | _ =>
          match parseJVal fuel rest with
          | none => none
          | some (v, r) =>
            match parseArrRest fuel r with
            | none => none
            | some (vs, r2) => some (.jarr (v :: vs), r2)
      else if b = 123 then
        match skipWs rest with
        | 125 :: r => some (.jobj [], r)
        | _ =>
          match parseObjField fuel rest with
          | none => none
          | some (f, r) =>
            match parseObjRest fuel r with
            | none => none
            | some (fs, r2) => some (.jobj (f :: fs), r2)
      else if b = 45 ∨ (48 ≤ b ∧ b ≤ 57) then
        (parseNumLit (b :: rest)).map (fun p => (JVal.jnum p.1, p.2))
      else none

/-- Items after the first array element: `, value`* then `]`. -/
def parseArrRest : Nat → List Nat → Option (List JVal × List Nat)
  | 0, _ => none
  | fuel + 1, bs =>
    match skipWs bs with
    | 93 :: r => some ([], r)
    | 44 :: r =>
      match parseJVal fuel r with
      | none => none
      | some (v, r2) =>
        match parseArrRest fuel r2 with
        | none => none
        | some (vs, r3) => some (v :: vs, r3)
    | _ => none

/-- One object field: `"key" : value`. -/
def parseObjField : Nat → List Nat → Option ((List Nat × JVal) × List Nat)
  | 0, _ => none
  | fuel + 1, bs =>
    match skipWs bs with
    | 34 :: r =>
      match parseStrBody r with
      | none => none
      | some (key, r2) =>
        match skipWs r2 with
        | 58 :: r3 =>
          match parseJVal fuel r3 with
          | none => none
          | some (v, r4) => some ((key, v), r4)
        | _ => none
    | _ => none

/-- Fields after the first object field: `, "key" : value`* then `}`. -/
def parseObjRest : Nat → List Nat → Option (List (List Nat × JVal) × List Nat)
  | 0, _ => none
  | fuel + 1, bs =>
    match skipWs bs with
    | 125 :: r => some ([], r)
    | 44 :: r =>
      match parseObjField fuel r with
      | none => none
      | some (f, r2) =>
        match parseObjRest fuel r2 with
        | none => none
        | some (fs, r3) => some (f :: fs, r3)
    | _ => none

end

/-- The `jwtClaims` struct: `Exp`, `Iat` (Unix seconds, Go `int64`). -/
structure JwtClaims where
  exp : Int
  iat : Int
deriving DecidableEq

/-- UTF-8 bytes of an ASCII string. -/
def strBytes (s : String) : List Nat := s.data.map Char.toNat

/-- Digit-list value; `none` on empty or non-digit input. -/
def digitsVal : List Nat → Option Nat
  | [] => none
  | [b] => if 48 ≤ b ∧ b ≤ 57 then some (b - 48) else none
  | b :: rest =>
    if 48 ≤ b ∧ b ≤ 57 then
      match digitsVal rest with
      | some n => some ((b - 48) * 10 ^ rest.length + n)
      | none => none
    else none

/-- `strconv.ParseInt` on a number literal, with the int64 range check
(rejects fractions and exponents, as Go does for an `int64` field). -/
def parseInt64Lit (l : List Nat) : Option Int :=
  match l with
  | 45 :: ds =>
    match digitsVal ds with
    | some n => if (n : Int) ≤ 2 ^ 63 then some (-(n : Int)) else none
    | none => none
  | ds =>
    match digitsVal ds with
    | some n => if (n : Int) ≤ 2 ^ 63 - 1 then some (n : Int) else none
    | none => none

/-- An `int64`-typed struct field accepts only an integer JSON number. -/
def claimInt : JVal → Option Int
  | .jnum l => parseInt64Lit l
  | _ => none

/-- Apply one JSON object field to the claims struct (unknown keys are
ignored; later duplicates win, as in Go's sequential decoding). -/
def applyClaimField (acc : JwtClaims) (f : List Nat × JVal) : Except String JwtClaims :=
  if f.1 = strBytes "exp" then
    match claimInt f.2 with
    | some n => .ok { acc with exp := n }
    | none => .error "cannot unmarshal into Go struct field jwtClaims.exp of type int64"
  else if f.1 = strBytes "iat" then
    match claimInt f.2 with
    | some n => .ok { acc with iat := n }
    | none => .error "cannot unmarshal into Go struct field jwtClaims.iat of type int64"
  else .ok acc

/-- `json.Unmarshal(bs, &claims)` for `jwtClaims`. -/
def unmarshalJwtClaims (bs : List Nat) : Except String JwtClaims :=
  match parseJVal (bs.length + 1) bs with
  | none => .error "invalid character in JSON"
  | some (v, rest) =>
    if (skipWs rest).isEmpty = false then .error "invalid character after top-level value"
    else
      match v with
      | .jobj fields => fields.foldlM applyClaimField { exp := 0, iat := 0 }
      | _ => .error "cannot unmarshal non-object into Go value of type jwtClaims"

/-! ## Token freshness evaluation (`needsToken`) and issuance (`ensureToken`) -/

/-- A Kubernetes client, reduced to the two remote capabilities the token
path uses: token review (`Create` of a `TokenReview`; yields
`Status.Authenticated`) and token minting (`SubResource("token").Create`
on a service account; yields `Status.Token`). -/
structure ClientOps where
  review : String → Except String Bool
  mint : String → String → Int → Except String String

/-- The claims-decoding slice of `needsToken`: split the token on `.`,
index segment 1 (Go panics when the slice is too short), base64url-decode
it and unmarshal the JSON claims. -/
def decodeTokenClaims (tok : String) : GoRes (Except String JwtClaims) :=
  match (splitChar '.' tok.data)[1]? with
  | none => .panics "runtime error: index out of range [1] with length 1"
  | some seg =>
    match b64RawUrlDecode (String.mk seg) with
    | .error e => .ok (.error ("failed to decode payload: " ++ e))
    | .ok payload =>
      match unmarshalJwtClaims payload with
      | .error e => .ok (.error ("failed to unmarshal claims: " ++ e))
      | .ok claims => .ok (.ok claims)

/-- `time.maxDuration`: `1<<63 - 1` nanoseconds. -/
def maxDuration : Int := 9223372036854775807

/-- `time.minDuration`: `-1<<63` nanoseconds. -/
def minDuration : Int := -9223372036854775808

/-- `time.Time.Sub`: the exact difference when it is representable as a
`Duration` (`int64` nanoseconds), otherwise saturated to `maxDuration`
or `minDuration`. -/
def goTimeSub (t u : Int) : Int :=
  if maxDuration < t - u then maxDuration
  else if t - u < minDuration then minDuration
  else t - u

/-- `needsToken` from the secret controller.  `now` is the injected clock
(`Now()`), an instant in nanoseconds. -/
def needsToken (currentToken : String) (metalClient : ClientOps) (now : Int) :
    GoRes (Except String Bool) :=
  if currentToken = "" then .ok (.ok true)
  else
    match metalClient.review currentToken with
    | .error e => .ok (.error ("failed to create token review: " ++ e))
    | .ok authenticated =>
      if authenticated = false then .ok (.ok true)
      else
        match decodeTokenClaims currentToken with
        | .panics m => .panics m
        | .ok (.error e) => .ok (.error e)
        | .ok (.ok claims) =>
          let iatTime := claims.iat * 1000000000
          let expTime := claims.exp * 1000000000
          let age := goTimeSub now iatTime
          let lifetime := goTimeSub expTime iatTime
          .ok (.ok (decide (age > Int.tdiv lifetime 2)))

/-- `ensureTokenParams` (field name typo kept from the source). -/
structure EnsureTokenParams where
  serviceAccountName : String
  serviceAccountNamespace : String
  expirationSecods : Int
  currentToken : String
deriving DecidableEq

/-- `ensureToken`: keep the current token if fresh, otherwise mint a new
one via the token request subresource. -/
def ensureToken (metalClient : ClientOps) (now : Int) (params : EnsureTokenParams) :
    GoRes (Except String String) :=
  match needsToken params.currentToken metalClient now with
  | .panics m => .panics m
  | .ok (.error e) => .ok (.error ("failed to check if token is needed: " ++ e))
  | .ok (.ok needs) =>
    if needs = false then .ok (.ok params.currentToken)
    else
      match metalClient.mint params.serviceAccountName params.serviceAccountNamespace
          params.expirationSecods with
      | .error e => .ok (.error ("failed to create token request: " ++ e))
      | .ok tok => .ok (.ok tok)

/-! ## Config validation (`controllers/config.go`) -/

/-- `validateCluster`: the Go function mutates the cluster through a
pointer; the updated value is returned here.  Note the normalization of
`expirationSeconds` happens on the pointed-to value. -/
def validateCluster (cluster : ClusterConfig) : Except String ClusterConfig :=
  if cluster.serviceAccountName = "" then .error "serviceAccountName is required"
  else if cluster.serviceAccountNamespace = "" then .error "serviceAccountNamespace is required"
  else
    let cluster :=
      if cluster.expirationSeconds ≤ 0 then { cluster with expirationSeconds := 3600 }
      else cluster
    if cluster.identity = "" then .error "identity is required"
    else if ((cluster.targetSecretName = "") ≠ (cluster.targetSecretNamespace = "")) then
      .error "both TargetSecretName and TargetSecretNamespace must be set or unset together"
    else .ok cluster

/-- The validation loop of `LoadConfig`.  In the Go source the loop
variable `cluster` is a copy of the slice element, so the update made by
`validateCluster(&cluster)` is discarded; only the error is kept. -/
def validateClustersFrom : Nat → List ClusterConfig → Except String Unit
  | _, [] => .ok ()
  | i, c :: rest =>
    match validateCluster c with
    | .error e => .error ("invalid cluster at index " ++ toString i ++ ": " ++ e)
    | .ok _ => validateClustersFrom (i + 1) rest

/-- `LoadConfig` after the I/O boundary: `raw` is the combined outcome of
`os.ReadFile` + `json.Unmarshal` (already wrapped with the corresponding
message on failure).  The body mirrors the emptiness check, the
validation loop, and the final `return config, nil` of the original
slice. -/
def loadConfigCore (raw : Except String Config) : Except String Config :=
  match raw with
  | .error e => .error e
  | .ok config =>
    if config.clusters.length = 0 then .error "no clusters found in config"
    else
      match validateClustersFrom 0 config.clusters with
      | .error e => .error e
      | .ok _ => .ok config

/-! ## The reconciler (`Reconcile`, `reconcileInternal`) -/

/-- `ctrl.Result`: only `RequeueAfter` (nanoseconds) is ever set. -/
structure GoCtrlResult where
  requeueAfter : Int
deriving DecidableEq

/-- Arguments of the one `GardenClient.Patch` call: the modified Secret
and the `client.MergeFrom` base snapshot. -/
structure PatchCall where
  modified : Secret
  base : Secret
deriving DecidableEq

/-- What one reconciliation returns to the framework — `(ctrl.Result,
error)` — plus a record of the patch call if one was made. -/
structure ReconRet where
  result : GoCtrlResult
  err : Option String
  patchCall : Option PatchCall
deriving DecidableEq

/-- `ReconcileParams` from the source. -/
structure ReconcileParams where
  config : ClusterConfig
  targetNamespace : String
deriving DecidableEq

/-- The environment of one `Reconcile` invocation: the outcome of every
external interaction it can perform.  `configRaw` is the result of
reading and unmarshalling the config file; `fetchSecret` the result of
`GardenClient.Get`; `makeTargetClient` the resolver for a kubeconfig
Secret reference; `patchResult` the outcome of `GardenClient.Patch`;
`now` the injected clock. -/
structure Env where
  configRaw : Except String Config
  fetchSecret : Except GetErr Secret
  localClient : ClientOps
  makeTargetClient : String → String → Except String ClientOps
  patchResult : PatchCall → Except String Unit
  now : Int

/-- The `ensureTokenParams` value built by `reconcileInternal`: the
configured service-account coordinates and expiration, and the current
`token` data field (empty string when absent, as Go map indexing
yields the zero value). -/
def ensureParamsOf (secret : Secret) (params : ReconcileParams) : EnsureTokenParams :=
  { serviceAccountName := params.config.serviceAccountName
    serviceAccountNamespace := params.config.serviceAccountNamespace
    expirationSecods := params.config.expirationSeconds
    currentToken := (lookupKV secret.data "token").getD "" }

/-- The Secret as modified by `reconcileInternal` before the patch: the
three managed data fields are assigned, everything else is untouched. -/
def patchedSecretOf (secret : Secret) (params : ReconcileParams) (token : String) : Secret :=
  { secret with
    data := setKV (setKV (setKV secret.data "token" token)
      "username" params.config.serviceAccountName)
      "namespace" params.targetNamespace }

/-- `reconcileInternal`: ensure the token, write the three managed data
fields, and merge-patch against the pre-call snapshot. -/
def reconcileInternal (env : Env) (metalClient : ClientOps) (secret : Secret)
    (params : ReconcileParams) : GoRes ReconRet :=
  let unmodifiedSecret := secret
  match ensureToken metalClient env.now (ensureParamsOf secret params) with
  | .panics m => .panics m
  | .ok (.error e) => .ok { result := ⟨0⟩, err := some e, patchCall := none }
  | .ok (.ok token) =>
    let pc : PatchCall := { modified := patchedSecretOf secret params token
                            base := unmodifiedSecret }
    match env.patchResult pc with
    | .error e => .ok { result := ⟨0⟩, err := some e, patchCall := some pc }
    | .ok _ => .ok { result := ⟨120000000000⟩, err := none, patchCall := some pc }

/-- The first-match linear scan over the configured clusters (`for _, c
:= range config.Clusters` with `break`; zero value if none matches). -/
def findCluster : List ClusterConfig → String → ClusterConfig
  | [], _ => zeroClusterConfig
  | c :: rest, id => if c.identity = id then c else findCluster rest id

/-- Choice of the metal client: a target client from the referenced
kubeconfig Secret when both target coordinates are set, else the local
client. -/
def resolveMetalClient (env : Env) (cfgCluster : ClusterConfig) : Except String ClientOps :=
  if ¬ cfgCluster.targetSecretName = "" ∧ ¬ cfgCluster.targetSecretNamespace = "" then
    env.makeTargetClient cfgCluster.targetSecretName cfgCluster.targetSecretNamespace
  else .ok env.localClient

/-- `Reconcile`: the top-level state machine of one invocation. -/
def Reconcile (env : Env) : GoRes ReconRet :=
  match loadConfigCore env.configRaw with
  | .error e => .ok { result := ⟨0⟩, err := some e, patchCall := none }
  | .ok config =>
    match env.fetchSecret with
    | .error ge => .ok { result := ⟨0⟩, err := ignoreNotFound ge, patchCall := none }
    | .ok secret =>
      match lookupKV secret.annotations AutoprovisonKey with
      | none => .ok { result := ⟨0⟩, err := none, patchCall := none }
      | some autoprovisionValue =>
        match parseAutoprovisionValue autoprovisionValue with
        | .error _ => .ok { result := ⟨0⟩, err := none, patchCall := none }
        | .ok target =>
          let cfgCluster := findCluster config.clusters target.identity
          if cfgCluster.identity = "" then
            .ok { result := ⟨0⟩, err := none, patchCall := none }
          else
            match resolveMetalClient env cfgCluster with
            | .error e => .ok { result := ⟨0⟩, err := some e, patchCall := none }
            | .ok metalClient =>
              reconcileInternal env metalClient secret
                { config := cfgCluster, targetNamespace := target.nspace }

/-! ## Concrete fixtures used by witnesses and counterexamples -/

deriving instance DecidableEq for Except

/-- A client whose token review always reports authenticated. -/
def authAllClient : ClientOps :=
  { review := fun _ => .ok true, mint := fun _ _ _ => .ok "minted-token" }

/-- A client whose token review always reports not-authenticated. -/
def denyClient : ClientOps :=
  { review := fun _ => .ok false, mint := fun _ _ _ => .ok "minted-token" }

/-- A well-formed token whose payload segment decodes to the JSON claims
`iat = 1000`, `exp = 2000` (so lifetime 1000 s, half-life at 1500 s). -/
def tokenC1 : String := "h.eyJpYXQiOjEwMDAsImV4cCI6MjAwMH0.s"

/-! ## C1: the half-lifetime refresh policy -/

theorem tdiv_cancel_two (m : Int) : Int.tdiv (m * 2) 2 = m :=
  Int.mul_tdiv_cancel m (by norm_num)

/-- A well-formed token whose payload decodes to `iat = 0` and
`exp = 2^62` (a valid `int64` Unix second): its lifetime, 2^62 seconds,
exceeds the ±292-year range of a `time.Duration`. -/
def tokenLong : String := "h.eyJpYXQiOjAsImV4cCI6NDYxMTY4NjAxODQyNzM4NzkwNH0.s"

/-- C1 counterexample: for the decodable claims `iat = 0`,
`exp = 2^62` and the instant `now = 5*10^18` ns (about 158 years, well
inside the claimed no-refresh interval `[T0, T0 + L/2]`, whose upper
end is `2^61` seconds), the saturating `time.Time.Sub` caps the
measured lifetime at `2^63 - 1` ns, so the code refreshes although the
claim says it must not. -/
theorem needsToken_saturation_counterexample :
    decodeTokenClaims tokenLong = .ok (.ok { exp := 4611686018427387904, iat := 0 }) ∧
    needsToken tokenLong authAllClient 5000000000000000000 = .ok (.ok true) ∧
    (0 : Int) * 1000000000 ≤ 5000000000000000000 ∧
    (5000000000000000000 : Int) ≤
      0 * 1000000000 + 4611686018427387904 * 500000000 :=
  ⟨rfl, rfl, by decide, by decide⟩

/-- C1 amended: for a token whose decoded claims are `iat = T0` and
`exp = T0 + L` with `0 ≤ L` and the lifetime `L` representable as a
`time.Duration` (`L * 10^9 ≤ 2^63 - 1`, about 292 years), and whose
review reports authenticated, `needsToken` returns `false` exactly for
`now ≤ T0 + L/2` and `true` exactly for `now > T0 + L/2` (instants in
nanoseconds; `T0 + L/2` seconds is `T0 * 10^9 + L * 5*10^8` ns,
exactly): refresh is needed iff the age `now - iat` strictly exceeds
half the lifetime `exp - iat`.  For longer lifetimes the saturating
`time.Time.Sub` caps the measured lifetime at `2^63 - 1` ns and the
code refreshes earlier than the claim states. -/
theorem needsToken_half_lifetime (tok : String) (client : ClientOps) (T0 L now : Int)
    (htok : ¬ tok = "") (hrev : client.review tok = .ok true)
    (hdec : decodeTokenClaims tok = .ok (.ok { exp := T0 + L, iat := T0 }))
    (hL0 : 0 ≤ L) (hLmax : L * 1000000000 ≤ 9223372036854775807) :
    needsToken tok client now =
      .ok (.ok (decide (now > T0 * 1000000000 + L * 500000000))) := by
  have hlife : goTimeSub ((T0 + L) * 1000000000) (T0 * 1000000000) = L * 1000000000 := by
    unfold goTimeSub maxDuration minDuration
    rw [if_neg (by omega), if_neg (by omega)]
    ring
  have harith : Int.tdiv (L * 1000000000) 2 = L * 500000000 := by
    have h2 : L * 1000000000 = L * 500000000 * 2 := by ring
    rw [h2, tdiv_cancel_two]
  simp only [needsToken, if_neg htok, hrev, hdec, hlife, harith]
  rw [if_neg (by decide : ¬ (true = false))]
  congr 2
  rw [decide_eq_decide]
  unfold goTimeSub maxDuration minDuration
  split_ifs with h1 h2 <;> omega

/-- Witness for the amended C1 around the half-life boundary of
`tokenC1` (`T0 = 1000`, `L = 1000`; boundary at 1500 s =
1500000000000 ns). -/
theorem needsToken_half_lifetime_witness :
    needsToken tokenC1 authAllClient 1500000000000 = .ok (.ok false) ∧
    needsToken tokenC1 authAllClient 1500000000001 = .ok (.ok true) := by
  constructor
  · rw [needsToken_half_lifetime tokenC1 authAllClient 1000 1000 1500000000000
      (by decide) rfl rfl (by decide) (by decide)]
    rfl
  · rw [needsToken_half_lifetime tokenC1 authAllClient 1000 1000 1500000000001
      (by decide) rfl rfl (by decide) (by decide)]
    rfl

/-! ## C2: autoprovision value parsing -/

/-- C2 counterexample: the parser checks only the segment count, not
emptiness, so `"/b"` (empty identity) and `"a/"` (empty namespace) are
accepted, contradicting the claim that they are rejected with an error. -/
theorem parseAutoprovisionValue_accepts_empty_segments :
    parseAutoprovisionValue "/b" = .ok { identity := "", nspace := "b" } ∧
    parseAutoprovisionValue "a/" = .ok { identity := "a", nspace := "" } :=
  ⟨rfl, rfl⟩

/-- C2 amended: `parseAutoprovisionValue` succeeds exactly when the value
contains exactly one `/` (equivalently, splitting on `/` yields exactly
two segments, either possibly empty); the text before the separator
becomes the identity and the text after it the namespace.  `"a/b"` maps
to `(a, b)`, while `"a"`, `"a/b/c"` and `""` are errors. -/
theorem parseAutoprovisionValue_amended :
    (∀ v t, parseAutoprovisionValue v = .ok t ↔
      v.data = t.identity.data ++ '/' :: t.nspace.data ∧
      '/' ∉ t.identity.data ∧ '/' ∉ t.nspace.data) ∧
    parseAutoprovisionValue "a/b" = .ok { identity := "a", nspace := "b" } ∧
    (∃ e, parseAutoprovisionValue "a" = .error e) ∧
    (∃ e, parseAutoprovisionValue "a/b/c" = .error e) ∧
    (∃ e, parseAutoprovisionValue "" = .error e) := by
  refine ⟨?_, rfl, ⟨_, rfl⟩, ⟨_, rfl⟩, ⟨_, rfl⟩⟩
  intro v t
  constructor
  · intro h
    unfold parseAutoprovisionValue at h
    rcases hs : splitChar '/' v.data with _ | ⟨a, _ | ⟨b, _ | ⟨c, rest⟩⟩⟩ <;> rw [hs] at h
    · exact Except.noConfusion h
    · exact Except.noConfusion h
    · obtain ⟨hd, ha, hb⟩ := (splitChar_eq_pair_iff '/' v.data a b).mp hs
      have h2 : Except.ok (ε := String)
          { identity := String.mk a, nspace := String.mk b } = Except.ok t := h
      injection h2 with ht
      subst ht
      exact ⟨hd, ha, hb⟩
    · exact Except.noConfusion h
  · rintro ⟨hd, ha, hb⟩
    have hs : splitChar '/' v.data = [t.identity.data, t.nspace.data] :=
      (splitChar_eq_pair_iff '/' v.data _ _).mpr ⟨hd, ha, hb⟩
    simp only [parseAutoprovisionValue, hs]

/-- Witness for the amended C2 characterization at a concrete value. -/
theorem parseAutoprovisionValue_amended_witness :
    "x/y".data = "x".data ++ '/' :: "y".data ∧
    '/' ∉ "x".data ∧ '/' ∉ "y".data ∧
    parseAutoprovisionValue "x/y" = .ok { identity := "x", nspace := "y" } :=
  ⟨by decide, by decide, by decide,
    (parseAutoprovisionValue_amended.1 "x/y" { identity := "x", nspace := "y" }).mpr
      ⟨by decide, by decide, by decide⟩⟩

/-! ## C3: behaviour of `needsToken` on malformed stored tokens -/

/-- C3 failing input: a non-empty token without any `.` that the remote
review reports authenticated.  `strings.Split` yields one segment and
`parts[1]` is out of range: the code panics instead of returning the
ordinary error the claim (and the spec) require. -/
theorem needsToken_panics_on_dotless_token :
    authAllClient.review "notajwt" = .ok true ∧
    needsToken "notajwt" authAllClient 0 =
      .panics "runtime error: index out of range [1] with length 1" :=
  ⟨rfl, rfl⟩

/-! ## C6: empty token and unauthenticated token -/

/-- C6: `needsToken` on the empty current token returns `true` whatever
the client does (the review is never consulted), and on any non-empty
token whose review reports not-authenticated it returns `true` whatever
the rest of the token looks like (the claims are never decoded). -/
theorem needsToken_empty_or_unauthenticated :
    (∀ client now, needsToken "" client now = .ok (.ok true)) ∧
    (∀ tok client now, ¬ tok = "" → client.review tok = .ok false →
      needsToken tok client now = .ok (.ok true)) := by
  constructor
  · intro client now
    rfl
  · intro tok client now htok hrev
    simp [needsToken, if_neg htok, hrev]

/-- Witness for C6: the empty token with an always-deny client, and an
undecodable non-empty token with a deny client. -/
theorem needsToken_empty_or_unauthenticated_witness :
    needsToken "" denyClient 5 = .ok (.ok true) ∧
    needsToken "notajwt" denyClient 5 = .ok (.ok true) :=
  ⟨needsToken_empty_or_unauthenticated.1 denyClient 5,
    needsToken_empty_or_unauthenticated.2 "notajwt" denyClient 5 (by decide) rfl⟩

/-! ## C4: the expirationSeconds normalization is lost by the loop copy -/

/-- A config entry that is valid but has `expirationSeconds = 0`. -/
def clusterExpZero : ClusterConfig :=
  { serviceAccountName := "sa", serviceAccountNamespace := "sns",
    expirationSeconds := 0, identity := "metal",
    targetSecretName := "", targetSecretNamespace := "" }

/-- C4 failing input: `validateCluster` does compute the normalized entry
(3600), but the loop in `LoadConfig` validates a copy of the slice
element, so the accepted config still carries `expirationSeconds = 0`:
the normalization is not visible in the result, contradicting the claim
(and §4.2 of the spec). -/
theorem loadConfig_normalization_lost :
    validateCluster clusterExpZero = .ok { clusterExpZero with expirationSeconds := 3600 } ∧
    loadConfigCore (.ok { clusters := [clusterExpZero] }) =
      .ok { clusters := [clusterExpZero] } ∧
    clusterExpZero.expirationSeconds = 0 :=
  ⟨rfl, rfl, rfl⟩

/-! ## C7: the acceptance condition of LoadConfig -/

/-- The per-entry rejection condition of `validateCluster`, as the claim
enumerates it. -/
def clusterInvalid (c : ClusterConfig) : Prop :=
  c.serviceAccountName = "" ∨ c.serviceAccountNamespace = "" ∨ c.identity = "" ∨
    ((c.targetSecretName = "") ≠ (c.targetSecretNamespace = ""))

theorem validateCluster_error_iff (c : ClusterConfig) :
    (∃ e, validateCluster c = .error e) ↔ clusterInvalid c := by
  by_cases h1 : c.serviceAccountName = ""
  · simp [validateCluster, h1, clusterInvalid]
  · by_cases h2 : c.serviceAccountNamespace = ""
    · simp [validateCluster, h1, h2, clusterInvalid]
    · by_cases h3 : c.identity = ""
      · by_cases hexp : c.expirationSeconds ≤ 0 <;>
          simp [validateCluster, h1, h2, h3, hexp, clusterInvalid]
      · by_cases h4 : ((c.targetSecretName = "") ≠ (c.targetSecretNamespace = ""))
        · by_cases hexp : c.expirationSeconds ≤ 0 <;>
            simp [validateCluster, h1, h2, h3, h4, hexp, clusterInvalid]
        · by_cases hexp : c.expirationSeconds ≤ 0 <;>
            simp [validateCluster, h1, h2, h3, h4, hexp, clusterInvalid]

theorem validateClustersFrom_error_iff (i : Nat) (cs : List ClusterConfig) :
    (∃ e, validateClustersFrom i cs = .error e) ↔ ∃ c ∈ cs, clusterInvalid c := by
  induction cs generalizing i with
  | nil => simp [validateClustersFrom]
  | cons c rest ih =>
    by_cases hc : clusterInvalid c
    · obtain ⟨e, he⟩ := (validateCluster_error_iff c).mpr hc
      simp only [validateClustersFrom, he]
      exact ⟨fun _ => ⟨c, by simp, hc⟩, fun _ => ⟨_, rfl⟩⟩
    · cases hv : validateCluster c with
      | error e => exact absurd ((validateCluster_error_iff c).mp ⟨e, hv⟩) hc
      | ok c' =>
        simp only [validateClustersFrom, hv]
        rw [ih (i + 1)]
        constructor
        · rintro ⟨d, hd, hinv⟩
          exact ⟨d, List.mem_cons_of_mem c hd, hinv⟩
        · rintro ⟨d, hd, hinv⟩
          rcases List.mem_cons.mp hd with hd | hd
          · exact absurd (hd ▸ hinv) hc
          · exact ⟨d, hd, hinv⟩

/-- C7: `LoadConfig` (modelled past the I/O boundary: `raw` is the
outcome of reading and unmarshalling the file) returns an error exactly
when the read/parse failed, the items list is empty, or some entry has
an empty serviceAccountName, serviceAccountNamespace or identity, or
sets exactly one of targetSecretName/targetSecretNamespace; and whenever
it succeeds it returns exactly the parsed config. -/
theorem loadConfig_error_characterization (raw : Except String Config) :
    ((∃ e, loadConfigCore raw = .error e) ↔
      (∃ e, raw = .error e) ∨
      (∃ cfg, raw = .ok cfg ∧
        (cfg.clusters = [] ∨ ∃ c ∈ cfg.clusters, clusterInvalid c))) ∧
    (∀ cfg, loadConfigCore raw = .ok cfg → raw = .ok cfg) := by
  cases raw with
  | error e =>
    constructor
    · simp [loadConfigCore]
    · intro cfg h
      exact absurd h (by simp [loadConfigCore])
  | ok cfg0 =>
    constructor
    · by_cases hnil : cfg0.clusters.length = 0
      · simp only [loadConfigCore, hnil, if_pos]
        constructor
        · intro
          exact .inr ⟨cfg0, rfl, .inl (List.length_eq_zero.mp hnil)⟩
        · intro
          exact ⟨_, rfl⟩
      · simp only [loadConfigCore, hnil, if_neg, if_false]
        cases hv : validateClustersFrom 0 cfg0.clusters with
        | error e =>
          have hinv := (validateClustersFrom_error_iff 0 cfg0.clusters).mp ⟨e, hv⟩
          constructor
          · intro
            exact .inr ⟨cfg0, rfl, .inr hinv⟩
          · intro
            exact ⟨e, rfl⟩
        | ok u =>
          constructor
          · rintro ⟨e, he⟩
            exact absurd he (by simp)
          · rintro (⟨e, he⟩ | ⟨cfg, hcfg, hbad⟩)
            · exact absurd he (by simp)
            · have hc0 : cfg = cfg0 := by injection hcfg with h; exact h.symm
              subst hc0
              rcases hbad with hbad | hbad
              · exact absurd (by simp [hbad]) hnil
              · obtain ⟨e, he⟩ := (validateClustersFrom_error_iff 0 cfg.clusters).mpr hbad
                rw [hv] at he
                exact absurd he (by simp)
    · intro cfg h
      simp only [loadConfigCore] at h
      by_cases hnil : cfg0.clusters.length = 0
      · rw [if_pos hnil] at h
        exact absurd h (by simp)
      · rw [if_neg hnil] at h
        cases hv : validateClustersFrom 0 cfg0.clusters with
        | error e =>
          rw [hv] at h
          exact absurd h (by simp)
        | ok u =>
          rw [hv] at h
          injection h with h
          rw [h]

/-- Witness for C7: a config whose single entry sets `targetSecretName`
without `targetSecretNamespace` is rejected. -/
theorem loadConfig_error_characterization_witness :
    ∃ e, loadConfigCore (.ok { clusters :=
      [{ clusterExpZero with targetSecretName := "kubecfg" }] }) = .error e :=
  (loadConfig_error_characterization _).1.mpr
    (.inr ⟨_, rfl, .inr ⟨{ clusterExpZero with targetSecretName := "kubecfg" },
      by simp, by simp [clusterInvalid, clusterExpZero]⟩⟩)

/-! ## Inversion lemmas for the reconciler (shared by the claims below) -/

theorem reconcileInternal_ok_cases (env : Env) (mc : ClientOps) (secret : Secret)
    (params : ReconcileParams) (ret : ReconRet)
    (h : reconcileInternal env mc secret params = .ok ret) :
    (∃ e, ensureToken mc env.now (ensureParamsOf secret params) = .ok (.error e) ∧
      ret = ⟨⟨0⟩, some e, none⟩) ∨
    (∃ token,
      ensureToken mc env.now (ensureParamsOf secret params) = .ok (.ok token) ∧
      ((∃ e, env.patchResult ⟨patchedSecretOf secret params token, secret⟩ = .error e ∧
          ret = ⟨⟨0⟩, some e, some ⟨patchedSecretOf secret params token, secret⟩⟩) ∨
       (env.patchResult ⟨patchedSecretOf secret params token, secret⟩ = .ok () ∧
          ret = ⟨⟨120000000000⟩, none, some ⟨patchedSecretOf secret params token, secret⟩⟩))) := by
  simp only [reconcileInternal] at h
  split at h
  next m heq => exact GoRes.noConfusion h
  next e heq =>
    left
    injection h with h1
    exact ⟨e, heq, h1.symm⟩
  next token heq =>
    right
    refine ⟨token, heq, ?_⟩
    split at h
    next e hp =>
      injection h with h1
      exact .inl ⟨e, hp, h1.symm⟩
    next u hp =>
      injection h with h1
      cases u
      exact .inr ⟨hp, h1.symm⟩

theorem Reconcile_ok_cases (env : Env) (ret : ReconRet) (h : Reconcile env = .ok ret) :
    (∃ e, loadConfigCore env.configRaw = .error e ∧ ret = ⟨⟨0⟩, some e, none⟩) ∨
    (∃ config, loadConfigCore env.configRaw = .ok config ∧
      ((∃ ge, env.fetchSecret = .error ge ∧ ret = ⟨⟨0⟩, ignoreNotFound ge, none⟩) ∨
       (∃ secret, env.fetchSecret = .ok secret ∧
         ((lookupKV secret.annotations AutoprovisonKey = none ∧ ret = ⟨⟨0⟩, none, none⟩) ∨
          (∃ v, lookupKV secret.annotations AutoprovisonKey = some v ∧
            ((∃ e, parseAutoprovisionValue v = .error e ∧ ret = ⟨⟨0⟩, none, none⟩) ∨
             (∃ t, parseAutoprovisionValue v = .ok t ∧
               (((findCluster config.clusters t.identity).identity = "" ∧
                   ret = ⟨⟨0⟩, none, none⟩) ∨
                (¬ (findCluster config.clusters t.identity).identity = "" ∧
                  ((∃ e, resolveMetalClient env (findCluster config.clusters t.identity) =
                        .error e ∧ ret = ⟨⟨0⟩, some e, none⟩) ∨
                   (∃ mc, resolveMetalClient env (findCluster config.clusters t.identity) =
                        .ok mc ∧
                     reconcileInternal env mc secret
                       (ReconcileParams.mk (findCluster config.clusters t.identity)
                         t.nspace) = .ok ret))))))))))) := by
  simp only [Reconcile] at h
  split at h
  next e hcfg =>
    injection h with h1
    exact .inl ⟨e, hcfg, h1.symm⟩
  next config hcfg =>
    right
    refine ⟨config, hcfg, ?_⟩
    split at h
    next ge hget =>
      injection h with h1
      exact .inl ⟨ge, hget, h1.symm⟩
    next secret hget =>
      right
      refine ⟨secret, hget, ?_⟩
      split at h
      next hann =>
        injection h with h1
        exact .inl ⟨hann, h1.symm⟩
      next v hann =>
        right
        refine ⟨v, hann, ?_⟩
        split at h
        next e hpar =>
          injection h with h1
          exact .inl ⟨e, hpar, h1.symm⟩
        next t hpar =>
          right
          refine ⟨t, hpar, ?_⟩
          split at h
          next hid =>
            injection h with h1
            exact .inl ⟨hid, h1.symm⟩
          next hid =>
            right
            refine ⟨hid, ?_⟩
            split at h
            next e hres =>
              injection h with h1
              exact .inl ⟨e, hres, h1.symm⟩
            next mc hres =>
              exact .inr ⟨mc, hres, h⟩

/-! ## Reconciler fixtures -/

/-- A valid configured cluster with identity `metal`, using the local
client (no target secret coordinates). -/
def clusterA : ClusterConfig :=
  { serviceAccountName := "sa", serviceAccountNamespace := "sns",
    expirationSeconds := 3600, identity := "metal",
    targetSecretName := "", targetSecretNamespace := "" }

/-- A fetched Secret without the autoprovision trigger. -/
def secretNoAnn : Secret :=
  { name := "s", nspace := "default", annotations := [], labels := [], data := [] }

/-- An environment whose Secret has no autoprovision annotation. -/
def envSkip : Env :=
  { configRaw := .ok { clusters := [clusterA] }
    fetchSecret := .ok secretNoAnn
    localClient := authAllClient
    makeTargetClient := fun _ _ => .error "unused"
    patchResult := fun _ => .ok ()
    now := 0 }

/-! ## C5: which completions carry the delayed requeue -/

/-- C5 counterexample: a clean-terminate completion (no autoprovision
annotation) returns the zero `ctrl.Result` — no 2-minute requeue — with
a nil error, contradicting the claim that every error-free completion
carries the delayed-requeue signal. -/
theorem reconcile_skip_no_requeue :
    Reconcile envSkip = .ok { result := ⟨0⟩, err := none, patchCall := none } ∧
    (⟨0⟩ : GoCtrlResult) ≠ ⟨120000000000⟩ :=
  ⟨rfl, by decide⟩

/-- C5 amended: an error-free completion returns the 2-minute requeue
exactly when it reached the patch step; the clean-terminate paths
(Secret not found, no or malformed annotation, no matching cluster)
return the zero result with no requeue. -/
theorem reconcile_requeue_amended (env : Env) (ret : ReconRet)
    (h : Reconcile env = .ok ret) (herr : ret.err = none) :
    (ret.result = ⟨120000000000⟩ ∧ ¬ ret.patchCall = none) ∨
    (ret.result = ⟨0⟩ ∧ ret.patchCall = none) := by
  rcases Reconcile_ok_cases env ret h with ⟨e, -, hret⟩ | ⟨config, -, hcase⟩
  · subst hret
    exact Option.noConfusion herr
  · rcases hcase with ⟨ge, -, hret⟩ | ⟨secret, -, hcase⟩
    · subst hret
      exact .inr ⟨rfl, rfl⟩
    · rcases hcase with ⟨-, hret⟩ | ⟨v, -, hcase⟩
      · subst hret
        exact .inr ⟨rfl, rfl⟩
      · rcases hcase with ⟨e, -, hret⟩ | ⟨t, -, hcase⟩
        · subst hret
          exact .inr ⟨rfl, rfl⟩
        · rcases hcase with ⟨-, hret⟩ | ⟨-, hcase⟩
          · subst hret
            exact .inr ⟨rfl, rfl⟩
          · rcases hcase with ⟨e, -, hret⟩ | ⟨mc, -, hint⟩
            · subst hret
              exact Option.noConfusion herr
            · rcases reconcileInternal_ok_cases env mc secret _ ret hint with
                ⟨e, -, hret⟩ | ⟨token, -, hpc⟩
              · subst hret
                exact Option.noConfusion herr
              · rcases hpc with ⟨e, -, hret⟩ | ⟨-, hret⟩
                · subst hret
                  exact Option.noConfusion herr
                · subst hret
                  exact .inl ⟨rfl, by simp⟩

/-- Witness for the amended C5 on a clean-terminate environment. -/
theorem reconcile_requeue_amended_witness :
    ((⟨0⟩ : GoCtrlResult) = ⟨120000000000⟩ ∧ ¬ (none : Option PatchCall) = none) ∨
    ((⟨0⟩ : GoCtrlResult) = ⟨0⟩ ∧ (none : Option PatchCall) = none) :=
  reconcile_requeue_amended envSkip
    { result := ⟨0⟩, err := none, patchCall := none } rfl rfl

/-! ## C8: which conditions surface as errors -/

theorem resolveMetalClient_error_inv (env : Env) (c : ClusterConfig) (e : String)
    (h : resolveMetalClient env c = .error e) :
    env.makeTargetClient c.targetSecretName c.targetSecretNamespace = .error e := by
  unfold resolveMetalClient at h
  split at h
  · exact h
  · exact Except.noConfusion h

theorem resolveMetalClient_ok_inv (env : Env) (c : ClusterConfig) (mc : ClientOps)
    (h : resolveMetalClient env c = .ok mc) :
    mc = env.localClient ∨ ∃ n ns, env.makeTargetClient n ns = .ok mc := by
  unfold resolveMetalClient at h
  split at h
  · exact .inr ⟨_, _, h⟩
  · injection h with h1
    exact .inl h1.symm

/-- An environment whose `GardenClient.Get` fails with a non-NotFound
error while everything else is healthy. -/
def envFetchErr : Env :=
  { configRaw := .ok { clusters := [clusterA] }
    fetchSecret := .error (.other "connection refused")
    localClient := authAllClient
    makeTargetClient := fun _ _ => .error "unused"
    patchResult := fun _ => .ok ()
    now := 0 }

/-- C8 counterexample: the config loads fine, yet `Reconcile` returns an
error — the non-NotFound fetch failure — which is none of the four error
sources the claim enumerates (config load, client resolution,
review/mint, patch). -/
theorem reconcile_error_on_fetch_failure :
    loadConfigCore envFetchErr.configRaw = .ok { clusters := [clusterA] } ∧
    Reconcile envFetchErr =
      .ok { result := ⟨0⟩, err := some "connection refused", patchCall := none } :=
  ⟨rfl, rfl⟩

/-- C8 amended: under a loadable config, the four benign conditions
(not-found, missing annotation, malformed annotation, no matching
cluster) all complete with a nil error and the zero result; and every
returned error stems from a config-load failure, a non-NotFound fetch
failure, a target-client resolution failure, a review/mint failure of a
resolved client, or a patch failure. -/
theorem reconcile_clean_and_error_sources (env : Env) :
    (∀ config, loadConfigCore env.configRaw = .ok config →
      ((env.fetchSecret = .error .notFound →
          Reconcile env = .ok { result := ⟨0⟩, err := none, patchCall := none }) ∧
       (∀ secret, env.fetchSecret = .ok secret →
         ((lookupKV secret.annotations AutoprovisonKey = none →
             Reconcile env = .ok { result := ⟨0⟩, err := none, patchCall := none }) ∧
          (∀ v e, lookupKV secret.annotations AutoprovisonKey = some v →
            parseAutoprovisionValue v = .error e →
            Reconcile env = .ok { result := ⟨0⟩, err := none, patchCall := none }) ∧
          (∀ v t, lookupKV secret.annotations AutoprovisonKey = some v →
            parseAutoprovisionValue v = .ok t →
            (findCluster config.clusters t.identity).identity = "" →
            Reconcile env = .ok { result := ⟨0⟩, err := none, patchCall := none }))))) ∧
    (∀ ret e, Reconcile env = .ok ret → ret.err = some e →
      (∃ e2, loadConfigCore env.configRaw = .error e2) ∨
      (∃ e2, env.fetchSecret = .error (.other e2)) ∨
      (∃ n ns e2, env.makeTargetClient n ns = .error e2) ∨
      (∃ mc p e2, (mc = env.localClient ∨ ∃ n ns, env.makeTargetClient n ns = .ok mc) ∧
        ensureToken mc env.now p = .ok (.error e2)) ∨
      (∃ pc e2, env.patchResult pc = .error e2)) := by
  constructor
  · intro config hcfg
    refine ⟨?_, ?_⟩
    · intro hnf
      simp [Reconcile, hcfg, hnf, ignoreNotFound]
    · intro secret hget
      refine ⟨?_, ?_, ?_⟩
      · intro hann
        simp [Reconcile, hcfg, hget, hann]
      · intro v e hann hpar
        simp [Reconcile, hcfg, hget, hann, hpar]
      · intro v t hann hpar hid
        simp [Reconcile, hcfg, hget, hann, hpar, hid]
  · intro ret e h herr
    rcases Reconcile_ok_cases env ret h with ⟨e2, hcfg, hret⟩ | ⟨config, hcfg, hcase⟩
    · exact .inl ⟨e2, hcfg⟩
    · rcases hcase with ⟨ge, hge, hret⟩ | ⟨secret, hget, hcase⟩
      · cases ge with
        | notFound =>
          subst hret
          exact Option.noConfusion herr
        | other e2 =>
          exact .inr (.inl ⟨e2, hge⟩)
      · rcases hcase with ⟨-, hret⟩ | ⟨v, hann, hcase⟩
        · subst hret
          exact Option.noConfusion herr
        · rcases hcase with ⟨e2, -, hret⟩ | ⟨t, hpar, hcase⟩
          · subst hret
            exact Option.noConfusion herr
          · rcases hcase with ⟨-, hret⟩ | ⟨-, hcase⟩
            · subst hret
              exact Option.noConfusion herr
            · rcases hcase with ⟨e2, hres, hret⟩ | ⟨mc, hres, hint⟩
              · exact .inr (.inr (.inl
                  ⟨_, _, e2, resolveMetalClient_error_inv env _ e2 hres⟩))
              · rcases reconcileInternal_ok_cases env mc secret _ ret hint with
                  ⟨e2, hens, hret⟩ | ⟨token, -, hpc⟩
                · exact .inr (.inr (.inr (.inl
                    ⟨mc, _, e2, resolveMetalClient_ok_inv env _ mc hres, hens⟩)))
                · rcases hpc with ⟨e2, hp, hret⟩ | ⟨-, hret⟩
                  · exact .inr (.inr (.inr (.inr ⟨_, e2, hp⟩)))
                  · subst hret
                    exact Option.noConfusion herr

/-- Witness for the amended C8: the missing-annotation path of `envSkip`
completes with a nil error. -/
theorem reconcile_clean_and_error_sources_witness :
    Reconcile envSkip = .ok { result := ⟨0⟩, err := none, patchCall := none } :=
  (((reconcile_clean_and_error_sources envSkip).1
    { clusters := [clusterA] } rfl).2 secretNoAnn rfl).1 rfl

/-! ## C9: the patch writes exactly the three managed fields -/

/-- C9: whenever a reconciliation reaches the patch step, the patch is a
merge against the pre-call snapshot of the fetched Secret: annotations,
labels and every data field other than `token`, `username` and
`namespace` are unchanged in the asserted object, `username` is the
configured service-account name of the matched cluster, and `namespace`
is the namespace parsed from the annotation. -/
theorem reconcile_patch_frame (env : Env) (ret : ReconRet) (pc : PatchCall)
    (secret : Secret) (v : String) (t : Target) (config : Config)
    (h : Reconcile env = .ok ret) (hpc : ret.patchCall = some pc)
    (hcfg : loadConfigCore env.configRaw = .ok config)
    (hget : env.fetchSecret = .ok secret)
    (hann : lookupKV secret.annotations AutoprovisonKey = some v)
    (hpar : parseAutoprovisionValue v = .ok t) :
    pc.base = secret ∧
    pc.modified.annotations = secret.annotations ∧
    pc.modified.labels = secret.labels ∧
    (∀ k, ¬ k = "token" → ¬ k = "username" → ¬ k = "namespace" →
      lookupKV pc.modified.data k = lookupKV secret.data k) ∧
    lookupKV pc.modified.data "username" =
      some (findCluster config.clusters t.identity).serviceAccountName ∧
    lookupKV pc.modified.data "namespace" = some t.nspace := by
  rcases Reconcile_ok_cases env ret h with ⟨e, -, hret⟩ | ⟨config', hcfg', hcase⟩
  · subst hret
    exact Option.noConfusion hpc
  · rw [hcfg] at hcfg'
    injection hcfg' with hc
    subst hc
    rcases hcase with ⟨ge, hge, hret⟩ | ⟨secret', hget', hcase⟩
    · rw [hget] at hge
      exact Except.noConfusion hge
    · rw [hget] at hget'
      injection hget' with hs
      subst hs
      rcases hcase with ⟨hann', hret⟩ | ⟨v', hann', hcase⟩
      · rw [hann] at hann'
        exact Option.noConfusion hann'
      · rw [hann] at hann'
        injection hann' with hv
        subst hv
        rcases hcase with ⟨e, hpar', hret⟩ | ⟨t', hpar', hcase⟩
        · rw [hpar] at hpar'
          exact Except.noConfusion hpar'
        · rw [hpar] at hpar'
          injection hpar' with ht
          subst ht
          rcases hcase with ⟨-, hret⟩ | ⟨-, hcase⟩
          · subst hret
            exact Option.noConfusion hpc
          · rcases hcase with ⟨e, -, hret⟩ | ⟨mc, -, hint⟩
            · subst hret
              exact Option.noConfusion hpc
            · rcases reconcileInternal_ok_cases env mc secret _ ret hint with
                ⟨e, -, hret⟩ | ⟨token, -, hcase2⟩
              · subst hret
                exact Option.noConfusion hpc
              · have hpcval : pc =
                    ⟨patchedSecretOf secret
                      (ReconcileParams.mk (findCluster config.clusters t.identity) t.nspace)
                      token, secret⟩ := by
                  rcases hcase2 with ⟨e, -, hret⟩ | ⟨-, hret⟩ <;>
                    · subst hret
                      injection hpc with h1
                      exact h1.symm
                subst hpcval
                refine ⟨rfl, rfl, rfl, ?_, ?_, ?_⟩
                · intro k hk1 hk2 hk3
                  show lookupKV (setKV (setKV (setKV secret.data "token" token)
                    "username" _) "namespace" _) k = lookupKV secret.data k
                  rw [lookupKV_setKV_other _ _ _ _ hk3, lookupKV_setKV_other _ _ _ _ hk2,
                    lookupKV_setKV_other _ _ _ _ hk1]
                · show lookupKV (setKV (setKV (setKV secret.data "token" token)
                    "username" _) "namespace" _) "username" = _
                  rw [lookupKV_setKV_other _ _ _ _ (by decide), lookupKV_setKV_same]
                · show lookupKV (setKV (setKV (setKV secret.data "token" token)
                    "username" _) "namespace" _) "namespace" = _
                  rw [lookupKV_setKV_same]

/-- The fetched Secret used by the patch witnesses: carries the
autoprovision annotation, an unrelated label and an unrelated data field. -/
def secretAnn : Secret :=
  { name := "s", nspace := "default",
    annotations := [(AutoprovisonKey, "metal/team-a")],
    labels := [("keep", "me")],
    data := [("extra", "payload")] }

/-- An environment that reaches the patch step and mints a token. -/
def envPatch : Env :=
  { configRaw := .ok { clusters := [clusterA] }
    fetchSecret := .ok secretAnn
    localClient := authAllClient
    makeTargetClient := fun _ _ => .error "unused"
    patchResult := fun _ => .ok ()
    now := 0 }

/-- Witness for C9 on `envPatch`: the unrelated data field survives, and
the managed fields hold the configured values. -/
theorem reconcile_patch_frame_witness :
    lookupKV (patchedSecretOf secretAnn
        (ReconcileParams.mk clusterA "team-a") "minted-token").data "extra" =
      lookupKV secretAnn.data "extra" ∧
    lookupKV (patchedSecretOf secretAnn
        (ReconcileParams.mk clusterA "team-a") "minted-token").data "username" =
      some clusterA.serviceAccountName ∧
    lookupKV (patchedSecretOf secretAnn
        (ReconcileParams.mk clusterA "team-a") "minted-token").data "namespace" =
      some "team-a" := by
  have h := reconcile_patch_frame envPatch
    { result := ⟨120000000000⟩, err := none,
      patchCall := some ⟨patchedSecretOf secretAnn
        (ReconcileParams.mk clusterA "team-a") "minted-token", secretAnn⟩ }
    ⟨patchedSecretOf secretAnn
      (ReconcileParams.mk clusterA "team-a") "minted-token", secretAnn⟩
    secretAnn "metal/team-a" (Target.mk "metal" "team-a") { clusters := [clusterA] }
    rfl rfl rfl rfl rfl rfl
  exact ⟨h.2.2.2.1 "extra" (by decide) (by decide) (by decide),
    h.2.2.2.2.1, h.2.2.2.2.2⟩

/-! ## C10: no refresh means the stored token is written back unchanged -/

/-- C10: when the freshness evaluator answers `false`, `ensureToken`
returns the current token unchanged and never invokes the minting
capability (the result is the same under any mint function); and in a
reconciliation whose resolved client evaluates the stored token as
fresh, the `token` field asserted by the patch equals the token that was
already stored in the Secret. -/
theorem ensureToken_no_refresh_keeps_token :
    (∀ client now params mint2,
      needsToken params.currentToken client now = .ok (.ok false) →
      ensureToken client now params = .ok (.ok params.currentToken) ∧
      ensureToken { review := client.review, mint := mint2 } now params =
        .ok (.ok params.currentToken)) ∧
    (∀ env ret pc secret v t config mc,
      Reconcile env = .ok ret → ret.patchCall = some pc →
      loadConfigCore env.configRaw = .ok config →
      env.fetchSecret = .ok secret →
      lookupKV secret.annotations AutoprovisonKey = some v →
      parseAutoprovisionValue v = .ok t →
      resolveMetalClient env (findCluster config.clusters t.identity) = .ok mc →
      needsToken ((lookupKV secret.data "token").getD "") mc env.now = .ok (.ok false) →
      lookupKV pc.modified.data "token" =
        some ((lookupKV secret.data "token").getD "")) := by
  have part1 : ∀ client now params mint2,
      needsToken params.currentToken client now = .ok (.ok false) →
      ensureToken client now params = .ok (.ok params.currentToken) ∧
      ensureToken { review := client.review, mint := mint2 } now params =
        .ok (.ok params.currentToken) := by
    intro client now params mint2 hneeds
    constructor
    · unfold ensureToken
      rw [hneeds]
      rfl
    · have hneeds2 : needsToken params.currentToken
          { review := client.review, mint := mint2 } now = .ok (.ok false) := hneeds
      unfold ensureToken
      rw [hneeds2]
      rfl
  refine ⟨part1, ?_⟩
  intro env ret pc secret v t config mc h hpc hcfg hget hann hpar hres hneeds
  rcases Reconcile_ok_cases env ret h with ⟨e, -, hret⟩ | ⟨config', hcfg', hcase⟩
  · subst hret
    exact Option.noConfusion hpc
  · rw [hcfg] at hcfg'
    injection hcfg' with hc
    subst hc
    rcases hcase with ⟨ge, hge, hret⟩ | ⟨secret', hget', hcase⟩
    · rw [hget] at hge
      exact Except.noConfusion hge
    · rw [hget] at hget'
      injection hget' with hs
      subst hs
      rcases hcase with ⟨hann', hret⟩ | ⟨v', hann', hcase⟩
      · rw [hann] at hann'
        exact Option.noConfusion hann'
      · rw [hann] at hann'
        injection hann' with hv
        subst hv
        rcases hcase with ⟨e, hpar', hret⟩ | ⟨t', hpar', hcase⟩
        · rw [hpar] at hpar'
          exact Except.noConfusion hpar'
        · rw [hpar] at hpar'
          injection hpar' with ht
          subst ht
          rcases hcase with ⟨-, hret⟩ | ⟨-, hcase⟩
          · subst hret
            exact Option.noConfusion hpc
          · rcases hcase with ⟨e, -, hret⟩ | ⟨mc', hres', hint⟩
            · subst hret
              exact Option.noConfusion hpc
            · rw [hres] at hres'
              injection hres' with hmc
              subst hmc
              rcases reconcileInternal_ok_cases env mc secret _ ret hint with
                ⟨e, hens, hret⟩ | ⟨token, hens, hcase2⟩
              · subst hret
                exact Option.noConfusion hpc
              · have hpcval : pc =
                    ⟨patchedSecretOf secret
                      (ReconcileParams.mk (findCluster config.clusters t.identity) t.nspace)
                      token, secret⟩ := by
                  rcases hcase2 with ⟨e, -, hret⟩ | ⟨-, hret⟩ <;>
                    · subst hret
                      injection hpc with h1
                      exact h1.symm
                subst hpcval
                have hcur : ensureToken mc env.now
                    (ensureParamsOf secret
                      (ReconcileParams.mk (findCluster config.clusters t.identity) t.nspace)) =
                    .ok (.ok ((lookupKV secret.data "token").getD "")) :=
                  (part1 mc env.now _ mc.mint hneeds).1
                rw [hcur] at hens
                injection hens with h1
                injection h1 with h2
                rw [h2]
                show lookupKV (setKV (setKV (setKV secret.data "token" token)
                  "username" _) "namespace" _) "token" = some token
                rw [lookupKV_setKV_other _ _ _ _ (by decide),
                  lookupKV_setKV_other _ _ _ _ (by decide), lookupKV_setKV_same]

/-- Parameters whose current token is the fresh `tokenC1`. -/
def paramsFresh : EnsureTokenParams :=
  { serviceAccountName := "sa", serviceAccountNamespace := "sns",
    expirationSecods := 3600, currentToken := tokenC1 }

/-- Witness for C10: at `now = 0` (before the half-life of `tokenC1`),
`ensureToken` returns the stored token, also under a mint that would
fail if invoked. -/
theorem ensureToken_no_refresh_keeps_token_witness :
    ensureToken authAllClient 0 paramsFresh = .ok (.ok tokenC1) ∧
    ensureToken { review := authAllClient.review, mint := fun _ _ _ => .error "never" } 0
      paramsFresh = .ok (.ok tokenC1) :=
  ensureToken_no_refresh_keeps_token.1 authAllClient 0 paramsFresh
    (fun _ _ _ => .error "never") rfl
